import Mathlib

set_option maxHeartbeats 1000000
set_option maxRecDepth 100000
set_option synthInstance.maxSize 2000
set_option synthInstance.maxHeartbeats 1000000

/-! Verification development for the GAZ 7-segment display tools:
`fungaz.py` (letters sender with a 5-slot entry automaton), `gaz.py`
(start-number and race-time sender) and `tdc.py` (read-only serial
sniffer).  The Python functions are shallowly embedded as executable
Lean definitions; strings manipulated character by character are
modelled as `List Char`, whole payloads as `String`. -/

/-- fungaz.py `LETTER_MAP` (lines 29-39): the glyphs the display can
show.  The dictionary maps every key to itself, so it is modelled as
the list of its keys, in source order. -/
def LETTER_MAP : List Char :=
  ['A', 'C', 'E', 'F', 'G', 'H', 'I', 'J', 'L', 'P', 'S', 'U',
   'b', 'd', 'o',
   '0', '1', '2', '3', '4', '5', '6', '7', '8', '9',
   '-', '_', ' ']

/-- fungaz.py `HEADER` (line 42): the fixed head used for letters frames. -/
def HEADER : String := "  0   .     "

/-- fungaz.py `App._map_input_char(ch, widget)` (lines 185-208): maps a raw
input string to an allowed glyph.  `ch` is the Python string argument as a
char list (`ch[:1]` is its head); `slot` is the index of the entry widget
passed as `widget` (`some 0` corresponds to `self.ent_a`, `none` to the
omitted argument).  `str.isalpha`/`str.upper` are taken at their ASCII
meaning, which is exact for every character a frame can carry. -/
def mapInputChar (ch : List Char) (slot : Option Nat) : Option Char :=
  match ch with
  | [] => some ' '
  | s :: _ =>
    let m :=
      if s.isAlpha then
        if s.toUpper = 'B' then 'b'
        else if s.toUpper = 'D' then 'd'
        else if s.toUpper = 'O' then 'o'
        else s.toUpper
      else s
    if m = '-' ∧ slot = some 0 then none
    else if LETTER_MAP.contains m then some m else none

/-- fungaz.py `App.make_frame(letters)` (lines 238-242):
`a,b,c,d,e = list(letters.ljust(5))[:5]` followed by
`HEADER + f"{a} {b}{c} {d}{e} 00"`. -/
def make_frame (letters : String) : String :=
  let l := (letters.data ++ List.replicate (5 - letters.data.length) ' ').take 5
  let a := l.getD 0 ' '
  let b := l.getD 1 ' '
  let c := l.getD 2 ' '
  let d := l.getD 3 ' '
  let e := l.getD 4 ' '
  HEADER ++ String.mk [a, ' ', b, c, ' ', d, e, ' ', '0', '0']

/-- Python `f"{n:02d}"` on a natural number: `Nat.repr` zero-padded on the
left to width 2 (wider values are kept unchanged, as in Python). -/
def pad2 (n : Nat) : String :=
  String.mk (List.replicate (2 - (Nat.repr n).length) '0' ++ (Nat.repr n).data)

/-- Python `f"{n:03d}"` on a natural number: `Nat.repr` zero-padded on the
left to width 3. -/
def pad3 (n : Nat) : String :=
  String.mk (List.replicate (3 - (Nat.repr n).length) '0' ++ (Nat.repr n).data)

/-- gaz.py `App.build_number(n)` (lines 124-127): `f"A{n:03d}" + " " * 8`. -/
def build_number (n : Nat) : String :=
  "A" ++ pad3 n ++ String.mk (List.replicate 8 ' ')

/-- gaz.py `App.build_time_head(sec, cen)` (lines 129-141): the 14-char head
with `" {sec}"`-style padding below 100 seconds, the 12-char head with a
hundreds digit at or above 100. -/
def build_time_head (sec cen : Nat) : String :=
  if 100 ≤ sec then
    "  0   .     " ++ Nat.repr (sec / 100) ++ " " ++ pad2 (sec % 100) ++
      "." ++ pad2 cen ++ " 00"
  else
    "  0   .       " ++ (if sec < 10 then " " ++ Nat.repr sec else Nat.repr sec) ++
      "." ++ pad2 cen ++ " 00"

/-! Generic string helpers used to compute payload lengths. -/

theorem string_data_append (a b : String) : (a ++ b).data = a.data ++ b.data := by
  cases a; cases b; rfl

theorem string_length_eq_data (s : String) : s.length = s.data.length := rfl

/-- Length of the decimal numeral of every `n < 1000`. -/
theorem repr_len_lt1000 :
    ∀ n < 1000, (Nat.repr n).length = if n < 10 then 1 else if n < 100 then 2 else 3 := by
  decide

theorem string_length_append (a b : String) : (a ++ b).length = a.length + b.length := by
  cases a; cases b; simp [string_length_eq_data, string_data_append]

theorem repr_data_length (n : Nat) : (Nat.repr n).data.length = (Nat.repr n).length := rfl

theorem repr_len_le9 {n : Nat} (h : n ≤ 9) : (Nat.repr n).length = 1 := by
  have h1 := repr_len_lt1000 n (by omega)
  rwa [if_pos (by omega)] at h1

theorem repr_len_two_digits {n : Nat} (h1 : 10 ≤ n) (h2 : n ≤ 99) :
    (Nat.repr n).length = 2 := by
  have h := repr_len_lt1000 n (by omega)
  rwa [if_neg (by omega), if_pos (by omega)] at h

theorem pad2_len {n : Nat} (h : n ≤ 99) : (pad2 n).length = 2 := by
  have h1 := repr_len_lt1000 n (by omega)
  have h2 : 1 ≤ (Nat.repr n).length ∧ (Nat.repr n).length ≤ 2 := by
    split at h1 <;> [omega; (split at h1 <;> omega)]
  show (List.replicate (2 - (Nat.repr n).length) '0' ++ (Nat.repr n).data).length = 2
  rw [List.length_append, List.length_replicate, repr_data_length]
  omega

theorem pad3_len {n : Nat} (h : n ≤ 999) : (pad3 n).length = 3 := by
  have h1 := repr_len_lt1000 n (by omega)
  have h2 : 1 ≤ (Nat.repr n).length ∧ (Nat.repr n).length ≤ 3 := by
    split at h1 <;> [omega; (split at h1 <;> omega)]
  show (List.replicate (3 - (Nat.repr n).length) '0' ++ (Nat.repr n).data).length = 3
  rw [List.length_append, List.length_replicate, repr_data_length]
  omega

/-- Claim C1 counterexample: on the source, the letters frame for the glyphs
`A,C,E,F,G` is 22 characters long (not 20) and `HEADER` is 12 characters
long (not 11). -/
theorem letters_frame_length_cex :
    (make_frame "ACEFG").length = 22 ∧ (make_frame "ACEFG").length ≠ 20 ∧
    HEADER.length = 12 ∧ HEADER.length ≠ 11 := by decide

/-- Claim C1 (amended): for every 5-tuple of already-validated glyphs
`(a,b,c,d,e)`, blanks permitted, `make_frame` returns
`HEADER ++ a ++ " " ++ b ++ c ++ " " ++ d ++ e ++ " 00"`, where `HEADER` is
the fixed 12-character string `"  0   .     "`; the payload length is the
constant `12 + 10 = 22`, and content positions 2 and 5 of the 7-slot layout
(payload indices 13 and 16) are always spaces regardless of input. -/
theorem letters_frame_layout (a b c d e : Char)
    (ha : a ∈ LETTER_MAP) (hb : b ∈ LETTER_MAP) (hc : c ∈ LETTER_MAP)
    (hd : d ∈ LETTER_MAP) (he : e ∈ LETTER_MAP) :
    make_frame (String.mk [a, b, c, d, e]) =
      HEADER ++ String.mk [a, ' ', b, c, ' ', d, e, ' ', '0', '0'] ∧
    (make_frame (String.mk [a, b, c, d, e])).length = 22 ∧
    HEADER.length = 12 ∧
    (make_frame (String.mk [a, b, c, d, e])).data.getD 13 ' ' = ' ' ∧
    (make_frame (String.mk [a, b, c, d, e])).data.getD 16 ' ' = ' ' :=
  ⟨rfl, rfl, rfl, rfl, rfl⟩

/-- Witness for `letters_frame_layout` at the spec's own example tuple
`('A',' ','1','b',' ')`. -/
theorem letters_frame_layout_w :
    ('A' ∈ LETTER_MAP ∧ ' ' ∈ LETTER_MAP ∧ '1' ∈ LETTER_MAP ∧ 'b' ∈ LETTER_MAP) ∧
    make_frame (String.mk ['A', ' ', '1', 'b', ' ']) =
      HEADER ++ String.mk ['A', ' ', ' ', '1', ' ', 'b', ' ', ' ', '0', '0'] :=
  ⟨⟨by decide, by decide, by decide, by decide⟩,
   (letters_frame_layout 'A' ' ' '1' 'b' ' ' (by decide) (by decide) (by decide)
      (by decide) (by decide)).1⟩

/-- Claim C2: for seconds in `[0,99]` and hundredths in `[0,99]`,
`build_time_head` is the 14-character head `"  0   .       "` followed by the
seconds right-justified in 2 characters with a space pad below 10, a dot, the
zero-padded 2-digit hundredths and `" 00"`; for seconds in `[100,999]` it is
the 12-character head `"  0   .     "` followed by the single hundreds digit,
a space, the zero-padded 2-digit remainder, a dot, the zero-padded 2-digit
hundredths and `" 00"`.  Either way the payload is 22 characters. -/
theorem time_frame_layout (sec cen : Nat) (hcen : cen ≤ 99) :
    (sec ≤ 99 →
      build_time_head sec cen =
        "  0   .       " ++ (if sec < 10 then " " ++ Nat.repr sec else Nat.repr sec) ++
          "." ++ pad2 cen ++ " 00" ∧
      (if sec < 10 then " " ++ Nat.repr sec else Nat.repr sec).length = 2 ∧
      (pad2 cen).length = 2 ∧
      ("  0   .       " : String).length = 14 ∧
      (build_time_head sec cen).length = 22) ∧
    (100 ≤ sec → sec ≤ 999 →
      build_time_head sec cen =
        "  0   .     " ++ Nat.repr (sec / 100) ++ " " ++ pad2 (sec % 100) ++
          "." ++ pad2 cen ++ " 00" ∧
      (Nat.repr (sec / 100)).length = 1 ∧
      (pad2 (sec % 100)).length = 2 ∧
      ("  0   .     " : String).length = 12 ∧
      (build_time_head sec cen).length = 22) := by
  constructor
  · intro h99
    have hb : build_time_head sec cen =
        "  0   .       " ++ (if sec < 10 then " " ++ Nat.repr sec else Nat.repr sec) ++
          "." ++ pad2 cen ++ " 00" := by
      unfold build_time_head
      rw [if_neg (show ¬ 100 ≤ sec by omega)]
    have hsec : (if sec < 10 then " " ++ Nat.repr sec else Nat.repr sec).length = 2 := by
      rcases Nat.lt_or_ge sec 10 with h10 | h10
      · rw [if_pos h10, string_length_append, repr_len_le9 (by omega)]; rfl
      · rw [if_neg (by omega), repr_len_two_digits h10 h99]
    refine ⟨hb, hsec, pad2_len hcen, rfl, ?_⟩
    rw [hb]
    simp only [string_length_append, hsec, pad2_len hcen]
    rfl
  · intro h100 h999
    have hb : build_time_head sec cen =
        "  0   .     " ++ Nat.repr (sec / 100) ++ " " ++ pad2 (sec % 100) ++
          "." ++ pad2 cen ++ " 00" := by
      unfold build_time_head
      rw [if_pos h100]
    have hH : (Nat.repr (sec / 100)).length = 1 := repr_len_le9 (by omega)
    have hSS : (pad2 (sec % 100)).length = 2 := pad2_len (by omega)
    refine ⟨hb, hH, hSS, rfl, ?_⟩
    rw [hb]
    simp only [string_length_append, hH, hSS, pad2_len hcen]
    rfl

/-- Witness for `time_frame_layout` at the spec's examples `6.23` and
`123.07`. -/
theorem time_frame_layout_w :
    build_time_head 6 23 = "  0   .        6.23 00" ∧
    build_time_head 123 7 = "  0   .     1 23.07 00" := by
  constructor
  · have h := ((time_frame_layout 6 23 (by norm_num)).1 (by norm_num)).1
    rw [h]; decide
  · have h := ((time_frame_layout 123 7 (by norm_num)).2 (by norm_num) (by norm_num)).1
    rw [h]; decide

/-! Model of gaz.py transmissions.  `App.send_payload` writes `payload + CR`
to the port and reports success per payload; `time.sleep(0.08)` between the
start-number frames is recorded as an 80 ms pause event. -/

inductive TxEvent where
  | sent : String → TxEvent
  | failed : String → TxEvent
  | slept : Nat → TxEvent
deriving DecidableEq

/-- gaz.py `App.send_payload(payload)` (lines 144-159) as one trace event:
`ok` is whether the underlying serial write succeeds. -/
def sendPayloadEv (ok : Bool) (p : String) : TxEvent :=
  if ok then TxEvent.sent p else TxEvent.failed p

def digitChars : List Char := ['0', '1', '2', '3', '4', '5', '6', '7', '8', '9']

/-- Python `int(s)` on an all-digit string; `digitsToNat [] = 0` matches the
`or "0"` default in `send_number`. -/
def digitsToNat (l : List Char) : Nat :=
  l.foldl (fun a c => a * 10 + (c.toNat - 48)) 0

def digitVal (c : Char) : Nat := c.toNat - 48

/-- gaz.py `App.send_number` lines 163-164:
`int(''.join(ch for ch in self.num_var.get() if ch.isdigit()) or "0")`. -/
def parsedNum (input : List Char) : Nat :=
  digitsToNat (input.filter Char.isDigit)

/-- gaz.py `App.send_number` (lines 162-176): range validation, the `Axxx`
frame and the two sniffed empty follow-up frames with 80 ms pauses.
`ok1 ok2 ok3` are the outcomes of the three serial writes; the results of
the second and third writes are discarded by the source. -/
def send_number (input : List Char) (ok1 ok2 ok3 : Bool) : List TxEvent × Bool :=
  let n := parsedNum input
  if 999 < n then ([], false)
  else if ok1 then
    ([TxEvent.sent (build_number n), TxEvent.slept 80,
      sendPayloadEv ok2 (String.mk (List.replicate 11 ' ')), TxEvent.slept 80,
      sendPayloadEv ok3 (String.mk (List.replicate 15 ' '))], true)
  else ([TxEvent.failed (build_number n)], false)

/-- Python `str.isspace` over the ASCII range. -/
def pySpace (c : Char) : Bool :=
  c == ' ' || c == '\t' || c == '\n' || c == '\r' || c == '\x0b' || c == '\x0c'

/-- Python `str.strip()`: drop leading and trailing whitespace. -/
def pyStrip (l : List Char) : List Char :=
  ((l.dropWhile pySpace).reverse.dropWhile pySpace).reverse

/-- Python `txt.split('.', 1)`: the part before the first dot, and the part
after it when a dot exists. -/
def splitDot : List Char → List Char × Option (List Char)
  | [] => ([], none)
  | c :: t =>
    if c = '.' then ([], some t)
    else
      let p := splitDot t
      (c :: p.1, p.2)

/-- Python `str.isdigit()` restricted to ASCII: nonempty and all digits. -/
def pyIsDigit (l : List Char) : Bool :=
  !l.isEmpty && l.all Char.isDigit

/-- gaz.py `App.send_time` (lines 178-203), the parsing and validation part:
`self.time_var.get().strip()` to `(sec, cen)`, with `none` where the source
shows a message box and returns.  Split at the first dot; the seconds part
must be 1-3 digits; an absent or empty fraction means 0, a 1-digit fraction
is scaled by ten, a 2-digit fraction is literal, longer or non-digit is an
error; final range checks on both values. -/
def parseTime (txt : List Char) : Option (Nat × Nat) :=
  let t := pyStrip txt
  let parts := splitDot t
  let left := parts.1
  if pyIsDigit left = false ∨ left.length = 0 ∨ 3 < left.length then none
  else
    let sec := digitsToNat left
    let cenOpt : Option Nat :=
      match parts.2 with
      | none => some 0
      | some r =>
        if r = [] then some 0
        else if pyIsDigit r = false ∨ 2 < r.length then none
        else if r.length = 1 then some (digitsToNat r * 10)
        else some (digitsToNat r)
    match cenOpt with
    | none => none
    | some cen =>
      if sec ≤ 999 ∧ cen ≤ 99 then some (sec, cen) else none

/-- gaz.py `App.send_time` (line 204): one frame when parsing succeeds,
nothing otherwise. -/
def send_time (txt : List Char) (ok : Bool) : List TxEvent × Bool :=
  match parseTime txt with
  | none => ([], false)
  | some sc => ([sendPayloadEv ok (build_time_head sc.1 sc.2)], ok)

/-! Arithmetic and parsing helper lemmas. -/

theorem digit_mem_isDigit {c : Char} (h : c ∈ digitChars) : c.isDigit = true := by
  fin_cases h <;> decide

theorem digit_mem_ne_dot {c : Char} (h : c ∈ digitChars) : c ≠ '.' := by
  fin_cases h <;> decide

theorem digit_mem_not_space {c : Char} (h : c ∈ digitChars) : pySpace c = false := by
  fin_cases h <;> decide

theorem digit_mem_val_le9 {c : Char} (h : c ∈ digitChars) : digitVal c ≤ 9 := by
  fin_cases h <;> decide

theorem dropWhile_space_eq_self {l : List Char} (h : ∀ c ∈ l, pySpace c = false) :
    l.dropWhile pySpace = l := by
  cases l with
  | nil => rfl
  | cons c t =>
    have hc := h c (List.mem_cons_self _ _)
    simp [List.dropWhile_cons, hc]

theorem strip_eq_self {l : List Char} (h : ∀ c ∈ l, pySpace c = false) :
    pyStrip l = l := by
  unfold pyStrip
  rw [dropWhile_space_eq_self h,
    dropWhile_space_eq_self (by intro c hc; exact h c (List.mem_reverse.mp hc)),
    List.reverse_reverse]

theorem splitDot_append {L R : List Char} (h : ∀ c ∈ L, c ≠ '.') :
    splitDot (L ++ '.' :: R) = (L, some R) := by
  induction L with
  | nil => simp [splitDot]
  | cons c t ih =>
    have hc := h c (List.mem_cons_self _ _)
    simp [splitDot, hc, ih (fun x hx => h x (List.mem_cons_of_mem _ hx))]

theorem pyIsDigit_of_digits {L : List Char} (h : ∀ c ∈ L, c ∈ digitChars)
    (hne : L ≠ []) : pyIsDigit L = true := by
  simp only [pyIsDigit, Bool.and_eq_true, Bool.not_eq_true', List.all_eq_true]
  exact ⟨by simpa [List.isEmpty_iff] using hne,
    fun c hc => digit_mem_isDigit (h c hc)⟩

theorem digitsToNat_aux_bound :
    ∀ (L : List Char) (acc : Nat), (∀ c ∈ L, c ∈ digitChars) →
      L.foldl (fun a c => a * 10 + (c.toNat - 48)) acc < (acc + 1) * 10 ^ L.length := by
  intro L
  induction L with
  | nil => intro acc _; simpa using Nat.lt_succ_self acc
  | cons c t ih =>
    intro acc h
    have hc : digitVal c ≤ 9 := digit_mem_val_le9 (h c (List.mem_cons_self _ _))
    have ht := ih (acc * 10 + (c.toNat - 48)) (fun x hx => h x (List.mem_cons_of_mem _ hx))
    simp only [List.foldl_cons, List.length_cons]
    calc t.foldl (fun a c => a * 10 + (c.toNat - 48)) (acc * 10 + (c.toNat - 48))
        < (acc * 10 + (c.toNat - 48) + 1) * 10 ^ t.length := ht
      _ ≤ ((acc + 1) * 10) * 10 ^ t.length := by
          refine Nat.mul_le_mul_right _ ?_
          unfold digitVal at hc
          omega
      _ = (acc + 1) * 10 ^ (t.length + 1) := by ring

theorem digitsToNat_lt_pow {L : List Char} (h : ∀ c ∈ L, c ∈ digitChars) :
    digitsToNat L < 10 ^ L.length := by
  simpa [digitsToNat] using digitsToNat_aux_bound L 0 h

theorem digitsToNat_le999 {L : List Char} (h : ∀ c ∈ L, c ∈ digitChars)
    (hlen : L.length ≤ 3) : digitsToNat L ≤ 999 := by
  have h1 := digitsToNat_lt_pow h
  have h2 : (10 : Nat) ^ L.length ≤ 10 ^ 3 := Nat.pow_le_pow_right (by norm_num) hlen
  omega

/-- Evaluation of `parseTime` on a well-formed seconds part and an all-digit
fraction part of any length. -/
theorem parseTime_eval (L R : List Char)
    (hL : ∀ c ∈ L, c ∈ digitChars) (hne : L ≠ []) (hlen : L.length ≤ 3)
    (hR : ∀ c ∈ R, c ∈ digitChars) :
    parseTime (L ++ '.' :: R) =
      (if R = [] then some (digitsToNat L, 0)
       else if 2 < R.length then none
       else if R.length = 1 then some (digitsToNat L, digitsToNat R * 10)
       else some (digitsToNat L, digitsToNat R)) := by
  have hstrip : pyStrip (L ++ '.' :: R) = L ++ '.' :: R := by
    refine strip_eq_self ?_
    intro c hc
    rcases List.mem_append.mp hc with hcl | hcr
    · exact digit_mem_not_space (hL c hcl)
    · rcases List.mem_cons.mp hcr with hdot | hcr
      · subst hdot; decide
      · exact digit_mem_not_space (hR c hcr)
  have hsplit : splitDot (L ++ '.' :: R) = (L, some R) :=
    splitDot_append (fun c hc => digit_mem_ne_dot (hL c hc))
  have hLd : pyIsDigit L = true := pyIsDigit_of_digits hL hne
  have hsec : digitsToNat L ≤ 999 := digitsToNat_le999 hL hlen
  simp only [parseTime, hstrip, hsplit]
  rw [if_neg (by
    simp only [hLd, not_or]
    refine ⟨by decide, ?_, by omega⟩
    simpa [List.length_eq_zero] using hne)]
  by_cases hRe : R = []
  · simp [hRe, hsec]
  · simp only [if_neg hRe]
    by_cases hR2 : 2 < R.length
    · rw [if_pos (Or.inr hR2), if_pos hR2]
    · have hRd : pyIsDigit R = true := pyIsDigit_of_digits hR hRe
      rw [if_neg (by simp [hRd]; omega), if_neg hR2]
      by_cases hR1 : R.length = 1
      · rw [if_pos hR1, if_pos hR1]
        have hb := digitsToNat_lt_pow hR
        rw [hR1] at hb
        simp only [pow_one] at hb
        exact if_pos ⟨hsec, by omega⟩
      · rw [if_neg hR1, if_neg hR1]
        have hb := digitsToNat_lt_pow hR
        have hp : (10 : Nat) ^ R.length ≤ 10 ^ 2 :=
          Nat.pow_le_pow_right (by norm_num) (by omega)
        exact if_pos ⟨hsec, by omega⟩


/-- Claim C3: for every accepted start number, one logical send transmits
exactly three payloads in order — `"A"` + 3-digit zero-padded number +
8 spaces, then 11 spaces, then 15 spaces — with an 80 ms pause between
consecutive sends; the outcomes `ok2`,`ok3` of the later sends do not remove
or suppress the frames already recorded before them. -/
theorem send_number_trace (input : List Char) (ok2 ok3 : Bool)
    (h : parsedNum input ≤ 999) :
    send_number input true ok2 ok3 =
      ([TxEvent.sent (build_number (parsedNum input)), TxEvent.slept 80,
        sendPayloadEv ok2 (String.mk (List.replicate 11 ' ')), TxEvent.slept 80,
        sendPayloadEv ok3 (String.mk (List.replicate 15 ' '))], true) ∧
    build_number (parsedNum input) =
      "A" ++ pad3 (parsedNum input) ++ String.mk (List.replicate 8 ' ') ∧
    (build_number (parsedNum input)).length = 12 := by
  refine ⟨?_, rfl, ?_⟩
  · simp only [send_number]
    rw [if_neg (by omega)]
    simp
  · show ("A" ++ pad3 (parsedNum input) ++ String.mk (List.replicate 8 ' ')).length = 12
    rw [string_length_append, string_length_append, pad3_len h]
    rfl

/-- Witness for `send_number_trace` at input `"042"` with all sends
succeeding. -/
theorem send_number_trace_w :
    parsedNum ("042".data) ≤ 999 ∧
    send_number ("042".data) true true true =
      ([TxEvent.sent (build_number (parsedNum ("042".data))), TxEvent.slept 80,
        sendPayloadEv true (String.mk (List.replicate 11 ' ')), TxEvent.slept 80,
        sendPayloadEv true (String.mk (List.replicate 15 ' '))], true) :=
  ⟨by decide, (send_number_trace ("042".data) true true (by decide)).1⟩

/-- Claim C4: a fractional part of exactly one digit `d` encodes hundredths
as `digitVal d * 10` (digit-shifting, not rounding), while a two-digit
fraction is taken literally. -/
theorem fraction_digit_shift (L : List Char) (d : Char)
    (hL : ∀ c ∈ L, c ∈ digitChars) (hne : L ≠ []) (hlen : L.length ≤ 3)
    (hd : d ∈ digitChars) :
    parseTime (L ++ '.' :: [d]) = some (digitsToNat L, digitVal d * 10) ∧
    (∀ d2 ∈ digitChars,
      parseTime (L ++ '.' :: [d, d2]) =
        some (digitsToNat L, 10 * digitVal d + digitVal d2)) := by
  constructor
  · have h := parseTime_eval L [d] hL hne hlen (by simpa using hd)
    rw [h]
    simp [digitsToNat, digitVal]
  · intro d2 hd2
    have h := parseTime_eval L [d, d2] hL hne hlen (by
      intro c hc
      rcases List.mem_cons.mp hc with h1 | hc
      · subst h1; exact hd
      · rcases List.mem_cons.mp hc with h1 | hc
        · subst h1; exact hd2
        · simp at hc)
    rw [h]
    simp [digitsToNat, digitVal]
    omega

/-- Witness for `fraction_digit_shift` at the spec's example `6.2`
(hundredths 20, not 2) and at `6.23` (hundredths 23). -/
theorem fraction_digit_shift_w :
    parseTime (['6'] ++ '.' :: ['2']) = some (digitsToNat ['6'], digitVal '2' * 10) ∧
    parseTime (['6'] ++ '.' :: ['2', '3']) =
      some (digitsToNat ['6'], 10 * digitVal '2' + digitVal '3') :=
  ⟨(fraction_digit_shift ['6'] '2' (by decide) (by decide) (by decide) (by decide)).1,
   (fraction_digit_shift ['6'] '2' (by decide) (by decide) (by decide) (by decide)).2
      '3' (by decide)⟩

/-- Claim C5 counterexample: in start-number mode a non-digit character in
the numeric field is not a validation error and does not prevent the frame:
input `"1x2"` is silently stripped to `12` and the three frames are sent. -/
theorem validation_no_frame_cex :
    ('x' ∈ ("1x2".data) ∧ 'x'.isDigit = false) ∧
    send_number ("1x2".data) true true true =
      ([TxEvent.sent (build_number 12), TxEvent.slept 80,
        TxEvent.sent (String.mk (List.replicate 11 ' ')), TxEvent.slept 80,
        TxEvent.sent (String.mk (List.replicate 15 ' '))], true) := by decide

/-- Claim C5 (amended): in time mode a failed parse sends nothing, a fraction
longer than two digits is rejected with no frame, and a non-digit seconds
part is rejected with no frame; in start-number mode non-digit characters
are silently stripped — the send is aborted with no frame exactly when the
value remaining after the strip exceeds 999. -/
theorem validation_no_frame :
    (∀ txt ok, parseTime txt = none → send_time txt ok = ([], false)) ∧
    (∀ L R, (∀ c ∈ L, c ∈ digitChars) → L ≠ [] → L.length ≤ 3 →
      (∀ c ∈ R, c ∈ digitChars) → 2 < R.length →
      parseTime (L ++ '.' :: R) = none) ∧
    (∀ txt, pyIsDigit (splitDot (pyStrip txt)).1 = false → parseTime txt = none) ∧
    (∀ input ok1 ok2 ok3, 999 < parsedNum input →
      send_number input ok1 ok2 ok3 = ([], false)) ∧
    (∀ input ok2 ok3, parsedNum input ≤ 999 →
      (send_number input true ok2 ok3).1 ≠ []) := by
  refine ⟨?_, ?_, ?_, ?_, ?_⟩
  · intro txt ok h
    simp [send_time, h]
  · intro L R hL hne hlen hR h2
    rw [parseTime_eval L R hL hne hlen hR,
      if_neg (by intro hRe; rw [hRe] at h2; simp at h2), if_pos h2]
  · intro txt h
    simp only [parseTime]
    rw [if_pos (Or.inl h)]
  · intro input ok1 ok2 ok3 h
    simp only [send_number]
    rw [if_pos h]
  · intro input ok2 ok3 h
    simp only [send_number]
    rw [if_neg (by omega)]
    simp

/-- Witness for `validation_no_frame`: the over-long fraction `1.234` parses
to nothing, and the stripped-out-of-range number `1234` sends nothing. -/
theorem validation_no_frame_w :
    parseTime (['1'] ++ '.' :: ['2', '3', '4']) = none ∧
    send_number ("1234".data) true true true = ([], false) :=
  ⟨validation_no_frame.2.1 ['1'] ['2', '3', '4'] (by decide) (by decide) (by decide)
      (by decide) (by decide),
   validation_no_frame.2.2.2.1 ("1234".data) true true true (by decide)⟩

/-! Model of the fungaz.py entry automaton.  The five entry widgets hold
Python strings, modelled as `List Char` and kept to at most one character by
the validator; `slots` is the list of the five contents, indices 0-4, and
the focused entry is an index. -/

/-- tkinter keysyms that `_block_extra_key` (line 287) lets through
unconditionally. -/
def allowedKeys : List String :=
  ["BackSpace", "Delete", "Left", "Right", "Home", "End", "Tab",
   "Shift_L", "Shift_R", "Control_L", "Control_R", "Alt_L", "Alt_R"]

/-- Python `str.isprintable()` for a single ASCII character. -/
def pyPrintable (c : Char) : Bool :=
  32 ≤ c.toNat && c.toNat ≤ 126

/-- fungaz.py `App._route_to_next(current_widget, ch)` (lines 263-275):
write the glyph into the next entry and focus it; no effect when the
current entry is the last one. -/
def routeToNext (slots : List (List Char)) (w : Nat) (ch : Char) :
    List (List Char) × Nat :=
  if w < 4 then (slots.set (w + 1) [ch], w + 1) else (slots, w)

/-- fungaz.py `App._block_extra_key(event, var)` (lines 285-311).  `evChar`
is `event.char`, `hasSel` whether the entry has an active selection; the
result is the new `(slots, focus)` pair and whether the handler returns
`"break"`, suppressing the keystroke's default effect. -/
def blockExtraKey (slots : List (List Char)) (w : Nat) (keysym : String)
    (evChar : List Char) (hasSel : Bool) : (List (List Char) × Nat) × Bool :=
  if allowedKeys.contains keysym then ((slots, w), false)
  else if evChar.length = 1 ∧ pyPrintable (evChar.headD ' ') = true ∧
      mapInputChar evChar (some w) = none then
    ((slots, w), true)
  else if hasSel then ((slots, w), false)
  else if 1 ≤ (slots.getD w []).length ∧ evChar.length = 1 ∧
      pyPrintable (evChar.headD ' ') = true then
    match mapInputChar evChar (some w) with
    | none => ((slots, w), true)
    | some m => (routeToNext slots w m, true)
  else ((slots, w), false)

/-- Default Tk Entry backspace on a field's content (at most one character
in this GUI): delete the character before the cursor, the last one. -/
def tkEntryBackspace (s : List Char) : List Char := s.dropLast

/-- fungaz.py `App._smart_backspace(event, var)` (lines 281-283), run on key
release, i.e. after the default deletion: focus the previous entry when the
content is now empty (`_focus_prev` is a no-op on the first entry). -/
def smartBackspace (w : Nat) (content : List Char) : Nat :=
  if content.isEmpty then (if 0 < w then w - 1 else w) else w

/-- One full backspace keystroke on entry `w`: the default Tk deletion on
key press, then `_smart_backspace` on key release. -/
def backspaceEvent (slots : List (List Char)) (w : Nat) :
    List (List Char) × Nat :=
  (slots.set w (tkEntryBackspace (slots.getD w [])),
   smartBackspace w (tkEntryBackspace (slots.getD w [])))

/-- Loop of fungaz.py `App._on_paste` (lines 324-331): `i` is the next slot
to fill, `start` the index of `event.widget` — the widget argument passed to
`_map_input_char` for every pasted character. -/
def pasteLoop : List (List Char) → Nat → Nat → List Char → List (List Char) × Nat
  | slots, i, _, [] => (slots, i)
  | slots, i, start, ch :: rest =>
    match mapInputChar [ch] (some start) with
    | none => pasteLoop slots i start rest
    | some m =>
      if 5 ≤ i then (slots, i)
      else pasteLoop (slots.set i [m]) (i + 1) start rest

/-- fungaz.py `App._on_paste(event, var)` (lines 313-335): distribute the
clipboard text from the focused entry on, then focus `min (i-1) 4` when `i`
is positive, the start slot otherwise. -/
def onPaste (slots : List (List Char)) (start : Nat) (data : List Char) :
    List (List Char) × Nat :=
  let r := pasteLoop slots start start data
  (r.1, if 0 < r.2 then min (r.2 - 1) 4 else start)

/-- Sequential overwrite of slots `i, i+1, ...` with single glyphs. -/
def writeSeq : List (List Char) → Nat → List Char → List (List Char)
  | slots, _, [] => slots
  | slots, i, m :: rest => writeSeq (slots.set i [m]) (i + 1) rest

theorem pasteLoop_writes (data : List Char) :
    ∀ (slots : List (List Char)) (i start : Nat),
      (pasteLoop slots i start data).1 =
        writeSeq slots i
          ((data.filterMap fun ch => mapInputChar [ch] (some start)).take (5 - i)) := by
  induction data with
  | nil => intro slots i start; simp [pasteLoop, writeSeq]
  | cons ch rest ih =>
    intro slots i start
    cases hm : mapInputChar [ch] (some start) with
    | none =>
      simp only [pasteLoop, hm, List.filterMap_cons]
      exact ih slots i start
    | some m =>
      by_cases h5 : 5 ≤ i
      · have ht : 5 - i = 0 := by omega
        simp [pasteLoop, hm, h5, ht, writeSeq]
      · have ht : 5 - i = (5 - (i + 1)) + 1 := by omega
        simp only [pasteLoop, hm, if_neg h5, List.filterMap_cons, ht,
          List.take_succ_cons, writeSeq]
        exact ih (slots.set i [m]) (i + 1) start

/-- Claim C6 counterexample: pasting `"AB-12"` starting at slot `a` skips the
dash even though its distribution position would be slot `c`, because
`_on_paste` maps every character against the widget the paste started in;
the claim's expected result `A b - 1 2` is not produced. -/
theorem paste_dash_cex :
    (onPaste [[], [], [], [], []] 0 ['A', 'B', '-', '1', '2']).1 =
      [['A'], ['b'], ['1'], ['2'], []] ∧
    (onPaste [[], [], [], [], []] 0 ['A', 'B', '-', '1', '2']).1 ≠
      [['A'], ['b'], ['-'], ['1'], ['2']] := by decide

/-- Claim C6 (amended): paste consumes the text left to right, maps each
character with the position-dependent dash rejection evaluated against the
slot the paste started in (not the current distribution target), silently
skips unmapped characters without consuming a slot, and overwrites slots
sequentially from the start slot until text or the five slots run out:
the final slots equal a sequential write of the mapped characters truncated
to the remaining room; the dash itself is rejected exactly when the paste
starts at the first slot and accepted when it starts at any later slot. -/
theorem paste_distribution :
    (∀ slots start data, (onPaste slots start data).1 =
      writeSeq slots start
        ((data.filterMap fun ch => mapInputChar [ch] (some start)).take (5 - start))) ∧
    mapInputChar ['-'] (some 0) = none ∧
    (∀ k ∈ [1, 2, 3, 4], mapInputChar ['-'] (some k) = some '-') := by
  refine ⟨?_, by decide, by decide⟩
  intro slots start data
  exact pasteLoop_writes data slots start start

def asciiChars : List Char := (List.range 128).map Char.ofNat

/-- Rule of claim C7, written from its words: letters map case-insensitively
with `B→b`, `D→d`, `O→o` and every other letter upper-cased; a character
whose mapping is not in the canonical glyph set is rejected; the dash is
rejected exactly in the first slot; digits, underscore and space pass
through unchanged. -/
def mapCharSpec (c : Char) (slot : Nat) : Option Char :=
  if c.isAlpha then
    let m := if c.toUpper = 'B' then 'b'
      else if c.toUpper = 'D' then 'd'
      else if c.toUpper = 'O' then 'o'
      else c.toUpper
    if m ∈ LETTER_MAP then some m else none
  else if c = '-' then (if slot = 0 then none else some '-')
  else if c.isDigit ∨ c = '_' ∨ c = ' ' then some c
  else none

theorem blockExtraKey_unmapped (slots : List (List Char)) (w : Nat)
    (keysym : String) (evChar : List Char) (hasSel : Bool)
    (hm : mapInputChar evChar (some w) = none) :
    (blockExtraKey slots w keysym evChar hasSel).1 = (slots, w) := by
  unfold blockExtraKey
  split
  · rfl
  · split
    · rfl
    · split
      · rfl
      · split
        · rw [hm]
        · rfl

/-- Claim C7: on every ASCII character and every slot, the interactive
mapping `_map_input_char` agrees with the claimed rule (case-insensitive
letters with the `b`,`d`,`o` substitutions, pass-through digits, dash,
underscore and space, rejection outside the canonical glyph set, and the
dash rejected exactly in the first slot); moreover an unmapped character
never changes the slots or the focus. -/
theorem glyph_mapping_spec :
    (∀ c ∈ asciiChars, ∀ w ∈ [0, 1, 2, 3, 4],
      mapInputChar [c] (some w) = mapCharSpec c w) ∧
    (∀ slots w keysym evChar hasSel, mapInputChar evChar (some w) = none →
      (blockExtraKey slots w keysym evChar hasSel).1 = (slots, w)) :=
  ⟨by decide, fun slots w keysym evChar hasSel hm =>
    blockExtraKey_unmapped slots w keysym evChar hasSel hm⟩

/-- Witness for `glyph_mapping_spec`: the letter `B` in slot `b` maps to the
7-segment variant `b`. -/
theorem glyph_mapping_spec_w :
    ('B' ∈ asciiChars ∧ (1 : Nat) ∈ [0, 1, 2, 3, 4]) ∧
    mapInputChar ['B'] (some 1) = mapCharSpec 'B' 1 ∧
    mapCharSpec 'B' 1 = some 'b' :=
  ⟨⟨by decide, by decide⟩, glyph_mapping_spec.1 'B' (by decide) 1 (by decide),
   by decide⟩

theorem getD_set_ne {α : Type} (l : List α) (i j : Nat) (a dflt : α)
    (h : i ≠ j) : (l.set i a).getD j dflt = l.getD j dflt := by
  induction l generalizing i j with
  | nil => rfl
  | cons x t ih =>
    cases i with
    | zero =>
      cases j with
      | zero => exact absurd rfl h
      | succ j => rfl
    | succ i =>
      cases j with
      | zero => rfl
      | succ j => exact ih i j (by omega)

/-- Claim C8: a printable keystroke whose glyph maps, delivered to a slot
that already holds a glyph with no active selection, is suppressed and
routed: the mapped glyph overwrites the next slot, the original slot keeps
its content, and focus moves to the next slot; on the last slot the
character is dropped and no slot changes. -/
theorem route_overwrite (slots : List (List Char)) (w : Nat) (keysym : String)
    (c m : Char)
    (hk : allowedKeys.contains keysym = false)
    (hp : pyPrintable c = true)
    (hm : mapInputChar [c] (some w) = some m)
    (hfull : slots.getD w [] ≠ []) :
    blockExtraKey slots w keysym [c] false =
      ((if w < 4 then slots.set (w + 1) [m] else slots,
        if w < 4 then w + 1 else w), true) ∧
    (blockExtraKey slots w keysym [c] false).1.1.getD w [] = slots.getD w [] := by
  have h1 : blockExtraKey slots w keysym [c] false = (routeToNext slots w m, true) := by
    unfold blockExtraKey
    rw [if_neg (by rw [hk]; exact Bool.false_ne_true), if_neg (by simp [hm]),
      if_neg (by simp),
      if_pos ⟨by
        have := List.length_pos.mpr hfull
        omega, rfl, by simpa using hp⟩, hm]
  constructor
  · rw [h1]
    unfold routeToNext
    by_cases hw : w < 4
    · rw [if_pos hw, if_pos hw, if_pos hw]
    · rw [if_neg hw, if_neg hw, if_neg hw]
  · rw [h1]
    unfold routeToNext
    by_cases hw : w < 4
    · rw [if_pos hw]
      exact getD_set_ne slots (w + 1) w [m] [] (by omega)
    · rw [if_neg hw]

/-- Witness for `route_overwrite`: typing `1` into the filled first slot
routes the glyph into the second slot. -/
theorem route_overwrite_w :
    (allowedKeys.contains "1" = false ∧ pyPrintable '1' = true ∧
     mapInputChar ['1'] (some 0) = some '1' ∧
     ([['A'], [], [], [], []] : List (List Char)).getD 0 [] ≠ []) ∧
    blockExtraKey [['A'], [], [], [], []] 0 "1" ['1'] false =
      ((if 0 < 4 then ([['A'], [], [], [], []] : List (List Char)).set 1 ['1']
        else [['A'], [], [], [], []],
        if 0 < 4 then 1 else 0), true) :=
  ⟨⟨by decide, by decide, by decide, by decide⟩,
   (route_overwrite [['A'], [], [], [], []] 0 "1" '1' '1' (by decide) (by decide)
      (by decide) (by decide)).1⟩

theorem set_getD_eq_self {α : Type} (l : List α) (i : Nat) (a : α)
    (h : l.getD i a = a) : l.set i a = l := by
  induction l generalizing i with
  | nil => rfl
  | cons x t ih =>
    cases i with
    | zero => simp_all [List.getD]
    | succ i => simp_all [List.getD]

/-- Claim C9 counterexample: backspace on slot `b` holding `A` empties the
slot and still moves focus to slot `a`, although the slot was not empty
before the delete — focus movement is decided only by the content after the
deletion. -/
theorem backspace_focus_cex :
    (backspaceEvent [[], ['A'], [], [], []] 1).2 = 0 ∧
    ([[], ['A'], [], [], []] : List (List Char)).getD 1 [] ≠ [] ∧
    (backspaceEvent [[], ['A'], [], [], []] 1).1 = [[], [], [], [], []] := by decide

/-- Claim C9 (amended): for a slot holding at most one character, a
backspace always leaves the slot empty and always moves focus to the
previous slot (a no-op on the first slot) — focus moves exactly when the
slot is empty after the delete, not only when it was already empty before;
when the slot was already empty the event changes no slot content, i.e. it
is pure navigation. -/
theorem backspace_semantics (slots : List (List Char)) (w : Nat)
    (h1 : (slots.getD w []).length ≤ 1) :
    backspaceEvent slots w = (slots.set w [], if 0 < w then w - 1 else w) ∧
    (slots.getD w [] = [] → (backspaceEvent slots w).1 = slots) := by
  have hafter : tkEntryBackspace (slots.getD w []) = [] := by
    unfold tkEntryBackspace
    revert h1
    cases slots.getD w [] with
    | nil => intro _; rfl
    | cons x t =>
      cases t with
      | nil => intro _; rfl
      | cons y u => intro h1; simp at h1
  constructor
  · show (slots.set w (tkEntryBackspace (slots.getD w [])),
      smartBackspace w (tkEntryBackspace (slots.getD w []))) = _
    rw [hafter]
    rfl
  · intro he
    show slots.set w (tkEntryBackspace (slots.getD w [])) = slots
    rw [hafter]
    exact set_getD_eq_self slots w [] he

/-- Witness for `backspace_semantics`: backspace on slot `b` holding `A`. -/
theorem backspace_semantics_w :
    (([[], ['A'], [], [], []] : List (List Char)).getD 1 []).length ≤ 1 ∧
    backspaceEvent [[], ['A'], [], [], []] 1 =
      (([[], ['A'], [], [], []] : List (List Char)).set 1 [],
       if 0 < 1 then 1 - 1 else 1) :=
  ⟨by decide, (backspace_semantics [[], ['A'], [], [], []] 1 (by decide)).1⟩

/-! Model of the tdc.py sniffer rendering (`SnifferApp.read_loop`,
lines 147-169).  A received chunk is a list of byte values (`b < 256`). -/

/-- One uppercase hexadecimal digit (`0`-`9`, `A`-`F`) for `n < 16`. -/
def hexDigit (n : Nat) : Char :=
  if n < 10 then Char.ofNat (48 + n) else Char.ofNat (55 + n)

/-- Python `f'{b:02X}'` for a byte `b < 256`: exactly two uppercase hex
digits. -/
def hex2 (b : Nat) : String :=
  String.mk [hexDigit (b / 16), hexDigit (b % 16)]

/-- tdc.py line 159: `'HEX: ' + ' '.join(f'{b:02X}' for b in data)`. -/
def renderHex (data : List Nat) : String :=
  "HEX: " ++ String.intercalate " " (data.map hex2)

/-- Python `data.decode('ascii', errors='replace')` (tdc.py line 162): bytes
below 0x80 decode to themselves, all others to U+FFFD.  This never raises,
so the `except` fallback of line 164, which would substitute `'.'`, is
unreachable. -/
def decodeAsciiRepl (data : List Nat) : List Char :=
  data.map (fun b => if b < 128 then Char.ofNat b else '�')

/-- tdc.py line 166: `s.replace('\r', '<CR>').replace('\n', '<LF>')`; both
targets are single characters and `"<CR>"` contains no `'\n'`, so the two
passes act independently on each decoded character. -/
def visChar (c : Char) : List Char :=
  if c = '\r' then "<CR>".data else if c = '\n' then "<LF>".data else [c]

/-- The rendered ASCII view of a chunk. -/
def asciiVis (data : List Nat) : List Char :=
  ((decodeAsciiRepl data).map visChar).join

/-- tdc.py line 167: `f'ASCII: "{s_vis}"'`. -/
def renderAscii (data : List Nat) : String :=
  "ASCII: \"" ++ String.mk (asciiVis data) ++ "\""

/-- tdc.py lines 156-168: the enabled parts joined by two spaces
(`'  '.join(parts)`). -/
def readRender (data : List Nat) (showHex showAscii : Bool) : String :=
  String.intercalate "  "
    ((if showHex then [renderHex data] else []) ++
     (if showAscii then [renderAscii data] else []))

/-- Claim C10 counterexample: the non-printable byte `0x01` is rendered in
the ASCII view as the control character itself, not as `'.'`; the dead
`except` branch is the only place a dot substitution exists. -/
theorem ascii_view_dot_cex :
    asciiVis [1] = [Char.ofNat 1] ∧ asciiVis [1] ≠ ['.'] := by decide

/-- Claim C10 (amended): the hex view renders each byte as two uppercase
hexadecimal digits (space-separated by `' '.join`); the ASCII view renders
byte 0x0D as `<CR>` and 0x0A as `<LF>`, passes every other byte below 0x80
through verbatim — including non-printables such as 0x01 — and renders every
byte at or above 0x80 as U+FFFD; no byte is ever substituted by `'.'`. -/
theorem sniffer_render_bytes :
    ∀ b < 256,
      (hex2 b).length = 2 ∧
      (∀ c ∈ (hex2 b).data,
        c ∈ ['0', '1', '2', '3', '4', '5', '6', '7', '8', '9',
             'A', 'B', 'C', 'D', 'E', 'F']) ∧
      (b = 13 → asciiVis [b] = "<CR>".data) ∧
      (b = 10 → asciiVis [b] = "<LF>".data) ∧
      (b < 128 → b ≠ 13 → b ≠ 10 → asciiVis [b] = [Char.ofNat b]) ∧
      (128 ≤ b → asciiVis [b] = ['�']) := by decide

/-- Witness for `sniffer_render_bytes` at the carriage-return byte 0x0D:
`<CR>` in the ASCII view, `0D` in the hex view. -/
theorem sniffer_render_bytes_w :
    (13 : Nat) < 256 ∧ asciiVis [13] = "<CR>".data ∧
    (hex2 13).length = 2 ∧ hex2 13 = "0D" :=
  ⟨by decide, (sniffer_render_bytes 13 (by decide)).2.2.1 rfl,
   (sniffer_render_bytes 13 (by decide)).1, by decide⟩
